import Mathlib

/-!
Shallow embedding of the AgentBountyBoard contract (Solidity 0.8.20,
contracts/AgentBountyBoard.sol): a Dutch-auction job market where a poster
escrows maxPrice in CLAWD tokens, agents claim at the current auction price,
and the escrow is settled on approve / dispute / cancel / expire.

Modelling conventions:
- Addresses, token amounts and timestamps are Nat.  Solidity 0.8 checked
  arithmetic reverts on underflow; every subtraction below is performed at a
  point where the contract itself guarantees no underflow (for example the
  refund maxPrice - price, where price <= maxPrice is proved), so Nat
  truncated subtraction agrees with the EVM result on all reachable inputs.
  The one place a timestamp subtraction occurs, block.timestamp -
  job.auctionStart, is reachable on chain only with block.timestamp >=
  auctionStart (auctionStart is the posting timestamp of an earlier block),
  and theorems about arbitrary times carry that bound as a hypothesis.
- A transaction that reverts is an Except.error: the caller keeps the old
  state, which is exactly the EVM rollback semantics, including the rollback
  of every state write that textually precedes the revert point.
- The CLAWD ERC-20 is modelled by a balance map for external accounts plus
  the board contract balance; a transfer fails exactly when the payer
  balance is insufficient (allowance failures are folded into the same
  fallible outcome, as the spec treats escrow moves as atomic and fallible).
- Each Job record carries two ghost accounting fields, escrow and paidOut,
  updated at exactly the points where the contract moves tokens on account
  of that job: escrow is the part of the original maxPrice still held for
  the job, paidOut the cumulative amount already paid out or refunded.
-/

namespace AgentBountyBoard

/-- Account identity (an EVM address); 0 plays the role of address(0). -/
abbrev Addr := Nat

/-- Job lifecycle states, mirroring enum JobStatus of the contract. -/
inductive JobStatus
  | Open
  | Claimed
  | Submitted
  | Completed
  | Disputed
  | Expired
  | Cancelled
deriving DecidableEq, Repr

/-- Revert reasons of the contract.  Names follow the spec; the comment on
each constructor gives the require message (or panic) in the source. -/
inductive Err
  | jobNotFound        -- array out-of-bounds panic, or "Job does not exist"
  | jobNotOpen         -- "Job not open"
  | posterCannotClaim  -- "Poster cannot claim own job"
  | onlyPoster         -- "Only poster can approve/dispute/cancel"
  | jobNotSubmitted    -- "Job not submitted"
  | invalidRating      -- "Rating must be 0-100"
  | onlyAgent          -- "Only assigned agent"
  | jobNotClaimed      -- "Job not claimed" / "Job not in claimed state"
  | emptySubmission    -- "Submission URI required"
  | deadlinePassed     -- "Work deadline passed"
  | deadlineNotPassed  -- "Deadline not yet passed"
  | maxPriceZero       -- "Max price must be > 0"
  | maxLtMin           -- "Max must be >= min"
  | durationZero       -- "Auction duration must be > 0"
  | deadlineZero       -- "Work deadline must be > 0"
  | descriptionEmpty   -- "Description required"
  | transferFailed     -- CLAWD transfer reverted
deriving DecidableEq, Repr

/-- One job record, mirroring struct Job of the contract, extended with the
two ghost accounting fields escrow and paidOut described in the header. -/
structure Job where
  poster : Addr
  description : String
  minPrice : Nat
  maxPrice : Nat
  auctionStart : Nat
  auctionDuration : Nat
  workDeadline : Nat
  claimedAt : Nat
  agent : Addr
  agentId : Nat
  submissionURI : String
  paidAmount : Nat
  rating : Nat
  status : JobStatus
  escrow : Nat
  paidOut : Nat
deriving DecidableEq, Repr

/-- Per-agent reputation aggregate, mirroring struct AgentStats. -/
structure AgentStats where
  completedJobs : Nat
  disputedJobs : Nat
  totalEarned : Nat
  totalRating : Nat
deriving DecidableEq, Repr

/-- Whole-system state: the job array, the agentStats mapping (total
function, defaulting to the zero record exactly like a Solidity mapping),
the CLAWD balances of external accounts, and the CLAWD balance held by the
board contract itself. -/
structure State where
  jobs : List Job
  agentStats : Addr → AgentStats
  bal : Addr → Nat
  boardBal : Nat

/-- clawd.safeTransferFrom(payer, board, amount): fails when the payer
balance is insufficient, otherwise moves amount into the board. -/
def safeTransferFrom (s : State) (payer : Addr) (amount : Nat) :
    Except Err State :=
  if s.bal payer < amount then .error .transferFailed
  else .ok { s with
    bal := fun a => if a = payer then s.bal a - amount else s.bal a,
    boardBal := s.boardBal + amount }

/-- clawd.safeTransfer(dest, amount) out of the board: fails when the board
balance is insufficient, otherwise moves amount to dest. -/
def safeTransfer (s : State) (dest : Addr) (amount : Nat) :
    Except Err State :=
  if s.boardBal < amount then .error .transferFailed
  else .ok { s with
    bal := fun a => if a = dest then s.bal a + amount else s.bal a,
    boardBal := s.boardBal - amount }

/-- Array access jobs[jobId]; an out-of-range id reverts (bounds panic). -/
def getJob (s : State) (jobId : Nat) : Except Err Job :=
  match s.jobs[jobId]? with
  | some j => .ok j
  | none => .error .jobNotFound

/-- Internal price function _getCurrentPrice: maxPrice once the auction
window has elapsed, otherwise the truncated linear ramp from minPrice. -/
def _getCurrentPrice (job : Job) (now : Nat) : Nat :=
  if job.auctionStart + job.auctionDuration ≤ now then job.maxPrice
  else
    job.minPrice +
      (job.maxPrice - job.minPrice) * (now - job.auctionStart) /
        job.auctionDuration

/-- The fresh job record pushed by postJob: Open, auctionStart = now, the
claim fields zeroed, and the full maxPrice accounted as held escrow. -/
def newJob (caller : Addr) (now : Nat) (description : String)
    (minPrice maxPrice auctionDuration workDeadline : Nat) : Job :=
  { poster := caller
    description := description
    minPrice := minPrice
    maxPrice := maxPrice
    auctionStart := now
    auctionDuration := auctionDuration
    workDeadline := workDeadline
    claimedAt := 0
    agent := 0
    agentId := 0
    submissionURI := ""
    paidAmount := 0
    rating := 0
    status := .Open
    escrow := maxPrice
    paidOut := 0 }

/-- postJob: validates the inputs in source order, escrows maxPrice from the
caller, and appends a fresh Open job; returns the new state and job id. -/
def postJob (s : State) (caller : Addr) (now : Nat) (description : String)
    (minPrice maxPrice auctionDuration workDeadline : Nat) :
    Except Err (State × Nat) :=
  if ¬ maxPrice > 0 then .error .maxPriceZero
  else if ¬ maxPrice ≥ minPrice then .error .maxLtMin
  else if ¬ auctionDuration > 0 then .error .durationZero
  else if ¬ workDeadline > 0 then .error .deadlineZero
  else if description = "" then .error .descriptionEmpty
  else
    match safeTransferFrom s caller maxPrice with
    | .error e => .error e
    | .ok s1 =>
      .ok ({ s1 with jobs := s1.jobs ++
        [newJob caller now description minPrice maxPrice auctionDuration
          workDeadline] }, s1.jobs.length)

/-- The job record produced by a successful claim of job by caller at time
now: Claimed, with the claim price locked and the refund accounted. -/
def claimedJob (job : Job) (caller : Addr) (agentId now : Nat) : Job :=
  { job with
    status := .Claimed
    agent := caller
    agentId := agentId
    claimedAt := now
    paidAmount := _getCurrentPrice job now
    escrow := job.escrow - (job.maxPrice - _getCurrentPrice job now)
    paidOut := job.paidOut + (job.maxPrice - _getCurrentPrice job now) }

/-- claimJob: checks Open status then that the caller is not the poster,
locks the current auction price, and refunds maxPrice - price to the
poster, skipping the transfer when the refund is zero. -/
def claimJob (s : State) (caller : Addr) (now jobId agentId : Nat) :
    Except Err State :=
  match s.jobs[jobId]? with
  | none => .error .jobNotFound
  | some job =>
    if job.status ≠ .Open then .error .jobNotOpen
    else if caller = job.poster then .error .posterCannotClaim
    else
      let refund := job.maxPrice - _getCurrentPrice job now
      let s1 := { s with jobs := s.jobs.set jobId (claimedJob job caller agentId now) }
      if refund > 0 then safeTransfer s1 job.poster refund else .ok s1

/-- submitWork: checks the assigned agent, Claimed status, non-empty URI and
the inclusive work deadline, then records the submission. -/
def submitWork (s : State) (caller : Addr) (now jobId : Nat)
    (submissionURI : String) : Except Err State :=
  match s.jobs[jobId]? with
  | none => .error .jobNotFound
  | some job =>
    if caller ≠ job.agent then .error .onlyAgent
    else if job.status ≠ .Claimed then .error .jobNotClaimed
    else if submissionURI = "" then .error .emptySubmission
    else if ¬ now ≤ job.claimedAt + job.workDeadline then .error .deadlinePassed
    else
      let job' := { job with status := .Submitted, submissionURI := submissionURI }
      .ok { s with jobs := s.jobs.set jobId job' }

/-- approveWork: poster check, Submitted check, rating bound, then marks the
job Completed, bumps the agent stats, and pays paidAmount to the agent. -/
def approveWork (s : State) (caller : Addr) (jobId rating : Nat) :
    Except Err State :=
  match s.jobs[jobId]? with
  | none => .error .jobNotFound
  | some job =>
    if caller ≠ job.poster then .error .onlyPoster
    else if job.status ≠ .Submitted then .error .jobNotSubmitted
    else if ¬ rating ≤ 100 then .error .invalidRating
    else
      let st := s.agentStats job.agent
      let job' := { job with
        status := JobStatus.Completed
        rating := rating
        escrow := job.escrow - job.paidAmount
        paidOut := job.paidOut + job.paidAmount }
      let st' := { completedJobs := st.completedJobs + 1
                   disputedJobs := st.disputedJobs
                   totalEarned := st.totalEarned + job.paidAmount
                   totalRating := st.totalRating + rating : AgentStats }
      let s1 := { s with
        jobs := s.jobs.set jobId job'
        agentStats := fun a => if a = job.agent then st' else s.agentStats a }
      safeTransfer s1 job.agent job.paidAmount

/-- disputeWork: poster check, Submitted check, then marks the job Disputed,
bumps disputedJobs of the agent, and refunds paidAmount to the poster. -/
def disputeWork (s : State) (caller : Addr) (jobId : Nat) :
    Except Err State :=
  match s.jobs[jobId]? with
  | none => .error .jobNotFound
  | some job =>
    if caller ≠ job.poster then .error .onlyPoster
    else if job.status ≠ .Submitted then .error .jobNotSubmitted
    else
      let st := s.agentStats job.agent
      let job' := { job with
        status := JobStatus.Disputed
        escrow := job.escrow - job.paidAmount
        paidOut := job.paidOut + job.paidAmount }
      let st' := { st with disputedJobs := st.disputedJobs + 1 }
      let s1 := { s with
        jobs := s.jobs.set jobId job'
        agentStats := fun a => if a = job.agent then st' else s.agentStats a }
      safeTransfer s1 job.poster job.paidAmount

/-- cancelJob: poster check, Open check, then marks the job Cancelled and
refunds the full maxPrice escrow to the poster.  The contract function
reads no clock: cancellation has no time precondition. -/
def cancelJob (s : State) (caller : Addr) (jobId : Nat) : Except Err State :=
  match s.jobs[jobId]? with
  | none => .error .jobNotFound
  | some job =>
    if caller ≠ job.poster then .error .onlyPoster
    else if job.status ≠ .Open then .error .jobNotOpen
    else
      let job' := { job with
        status := JobStatus.Cancelled
        escrow := job.escrow - job.maxPrice
        paidOut := job.paidOut + job.maxPrice }
      let s1 := { s with jobs := s.jobs.set jobId job' }
      safeTransfer s1 job.poster job.maxPrice

/-- expireJob: permissionless; Claimed check then strict deadline check,
then marks the job Expired and refunds paidAmount to the poster. -/
def expireJob (s : State) (now jobId : Nat) : Except Err State :=
  match s.jobs[jobId]? with
  | none => .error .jobNotFound
  | some job =>
    if job.status ≠ .Claimed then .error .jobNotClaimed
    else if ¬ job.claimedAt + job.workDeadline < now then .error .deadlineNotPassed
    else
      let job' := { job with
        status := JobStatus.Expired
        escrow := job.escrow - job.paidAmount
        paidOut := job.paidOut + job.paidAmount }
      let s1 := { s with jobs := s.jobs.set jobId job' }
      safeTransfer s1 job.poster job.paidAmount

/-- View getCurrentPrice: explicit existence check then the internal price. -/
def getCurrentPrice (s : State) (jobId now : Nat) : Except Err Nat :=
  if h : jobId < s.jobs.length then .ok (_getCurrentPrice s.jobs[jobId] now)
  else .error .jobNotFound

/-- View getAgentStats: returns (completedJobs, disputedJobs, totalEarned,
avgRating), the average computed at query time, 0 when no job completed. -/
def getAgentStats (s : State) (agent : Addr) : Nat × Nat × Nat × Nat :=
  let st := s.agentStats agent
  (st.completedJobs, st.disputedJobs, st.totalEarned,
    if st.completedJobs > 0 then st.totalRating / st.completedJobs else 0)

/-- One successful transaction of the system. -/
inductive Step : State → State → Prop
  | post (s : State) (caller : Addr) (now : Nat) (d : String)
      (mn mx ad wd : Nat) (s' : State) (id : Nat) :
      postJob s caller now d mn mx ad wd = .ok (s', id) → Step s s'
  | claim (s : State) (caller : Addr) (now jobId agentId : Nat) (s' : State) :
      claimJob s caller now jobId agentId = .ok s' → Step s s'
  | submit (s : State) (caller : Addr) (now jobId : Nat) (uri : String)
      (s' : State) : submitWork s caller now jobId uri = .ok s' → Step s s'
  | approve (s : State) (caller : Addr) (jobId rating : Nat) (s' : State) :
      approveWork s caller jobId rating = .ok s' → Step s s'
  | dispute (s : State) (caller : Addr) (jobId : Nat) (s' : State) :
      disputeWork s caller jobId = .ok s' → Step s s'
  | cancel (s : State) (caller : Addr) (jobId : Nat) (s' : State) :
      cancelJob s caller jobId = .ok s' → Step s s'
  | expire (s : State) (now jobId : Nat) (s' : State) :
      expireJob s now jobId = .ok s' → Step s s'

/-- The deployed state: no jobs, zero stats, no tokens held by the board;
external accounts start with arbitrary CLAWD balances. -/
def initState (bal0 : Addr → Nat) : State :=
  { jobs := [], agentStats := fun _ => ⟨0, 0, 0, 0⟩, bal := bal0, boardBal := 0 }

/-- States reachable from a deployed state by successful transactions. -/
inductive Reachable : State → Prop
  | init (bal0 : Addr → Nat) : Reachable (initState bal0)
  | step (s s' : State) : Reachable s → Step s s' → Reachable s'

/-- The four terminal statuses of the state machine. -/
def Terminal (st : JobStatus) : Prop :=
  st = .Completed ∨ st = .Disputed ∨ st = .Expired ∨ st = .Cancelled

/-- Per-job accounting invariant: the validity bounds established by
postJob, value conservation for the ghost ledger, and the shape of the
ledger in each phase (full escrow while Open, exactly the locked amount
while Claimed or Submitted). -/
def JobInv (j : Job) : Prop :=
  j.minPrice ≤ j.maxPrice ∧ 0 < j.auctionDuration ∧
  j.escrow + j.paidOut = j.maxPrice ∧
  (j.status = .Open → j.escrow = j.maxPrice ∧ j.paidOut = 0) ∧
  ((j.status = .Claimed ∨ j.status = .Submitted) → j.escrow = j.paidAmount)

/-- System invariant: every job satisfies JobInv, and the CLAWD balance the
board actually holds is exactly the sum of the per-job held escrows. -/
def StateInv (s : State) : Prop :=
  (∀ j ∈ s.jobs, JobInv j) ∧ s.boardBal = (s.jobs.map Job.escrow).sum

/-- Serialized execution of a batch of racing claim transactions on the
same job: transactions on one chain execute in sequence, so a batch of
concurrent claims is some serial order of the individual calls.  Returns
the final state and the per-call outcome, in order. -/
def claimRace (now jobId : Nat) : State → List (Addr × Nat) →
    State × List (Except Err Unit)
  | s, [] => (s, [])
  | s, (c, aid) :: rest =>
    match claimJob s c now jobId aid with
    | .ok s' =>
      let r := claimRace now jobId s' rest
      (r.1, .ok () :: r.2)
    | .error e =>
      let r := claimRace now jobId s rest
      (r.1, .error e :: r.2)

/-- Demo balances: account 1 (the poster) owns 200 CLAWD. -/
def demoBal : Addr → Nat := fun a => if a = 1 then 200 else 0

/-- Deployed demo state. -/
def demoS0 : State := initState demoBal

/-- The job of the worked spec scenario: minPrice 100, maxPrice 200,
auctionDuration 60, workDeadline 300, posted by account 1 at time 0. -/
def demoJob : Job := newJob 1 0 "job" 100 200 60 300

/-- Demo state right after posting demoJob (200 CLAWD escrowed). -/
def demoS1 : State :=
  { jobs := [demoJob]
    agentStats := fun _ => ⟨0, 0, 0, 0⟩
    bal := fun a => if a = 1 then demoBal a - 200 else demoBal a
    boardBal := 0 + 200 }

/-- The demo job as claimed by agent 2 (agentId 7) at time 30: price 150
locked, refund 50 accounted. -/
def demoClaimedJob : Job :=
  { demoJob with
    status := .Claimed
    agent := 2
    agentId := 7
    claimedAt := 30
    paidAmount := 150
    escrow := 150
    paidOut := 50 }

/-- Demo state after the claim at time 30: board holds 150, poster got the
50 refund back. -/
def demoS2 : State :=
  { jobs := [demoClaimedJob]
    agentStats := fun _ => ⟨0, 0, 0, 0⟩
    bal := fun a => if a = 1 then 50 else 0
    boardBal := 150 }

/-- The demo job with work submitted. -/
def demoSubJob : Job :=
  { demoClaimedJob with
    status := .Submitted
    submissionURI := "w" }

/-- Demo state after the submission. -/
def demoS3 : State :=
  { jobs := [demoSubJob]
    agentStats := fun _ => ⟨0, 0, 0, 0⟩
    bal := fun a => if a = 1 then 50 else 0
    boardBal := 150 }

/-- The demo job approved with rating 90: terminal Completed, escrow fully
paid out. -/
def demoDoneJob : Job :=
  { demoSubJob with
    status := .Completed
    rating := 90
    escrow := 0
    paidOut := 200 }

/-- Demo state after approval: agent 2 was paid 150, stats recorded. -/
def demoS4 : State :=
  { jobs := [demoDoneJob]
    agentStats := fun a => if a = 2 then ⟨1, 0, 150, 90⟩ else ⟨0, 0, 0, 0⟩
    bal := fun a => if a = 2 then 150 else if a = 1 then 50 else 0
    boardBal := 0 }


/-! ## Result-state abbreviations

Named forms of the state each operation produces on success; each unfolds
to exactly the record the operation builds. -/

/-- State after a successful postJob. -/
def postResultState (s : State) (caller : Addr) (now : Nat)
    (description : String) (mn mx ad wd : Nat) : State :=
  { jobs := s.jobs ++ [newJob caller now description mn mx ad wd]
    agentStats := s.agentStats
    bal := fun a => if a = caller then s.bal a - mx else s.bal a
    boardBal := s.boardBal + mx }

/-- State after a successful claimJob of job (at index jobId). -/
def claimResultState (s : State) (job : Job) (caller : Addr)
    (agentId now jobId : Nat) : State :=
  { jobs := s.jobs.set jobId (claimedJob job caller agentId now)
    agentStats := s.agentStats
    bal := fun a => if a = job.poster
      then s.bal a + (job.maxPrice - _getCurrentPrice job now) else s.bal a
    boardBal := s.boardBal - (job.maxPrice - _getCurrentPrice job now) }

/-- The job record after submission. -/
def submittedJob (job : Job) (uri : String) : Job :=
  { job with status := .Submitted, submissionURI := uri }

/-- State after a successful submitWork. -/
def submitResultState (s : State) (job : Job) (jobId : Nat)
    (uri : String) : State :=
  { s with jobs := s.jobs.set jobId (submittedJob job uri) }

/-- The job record after approval. -/
def approvedJob (job : Job) (rating : Nat) : Job :=
  { job with
    status := .Completed
    rating := rating
    escrow := job.escrow - job.paidAmount
    paidOut := job.paidOut + job.paidAmount }

/-- State after a successful approveWork. -/
def approveResultState (s : State) (job : Job) (jobId rating : Nat) : State :=
  { jobs := s.jobs.set jobId (approvedJob job rating)
    agentStats := fun a => if a = job.agent then
      { completedJobs := (s.agentStats job.agent).completedJobs + 1
        disputedJobs := (s.agentStats job.agent).disputedJobs
        totalEarned := (s.agentStats job.agent).totalEarned + job.paidAmount
        totalRating := (s.agentStats job.agent).totalRating + rating }
      else s.agentStats a
    bal := fun a => if a = job.agent then s.bal a + job.paidAmount else s.bal a
    boardBal := s.boardBal - job.paidAmount }

/-- The job record after a dispute. -/
def disputedJob (job : Job) : Job :=
  { job with
    status := .Disputed
    escrow := job.escrow - job.paidAmount
    paidOut := job.paidOut + job.paidAmount }

/-- State after a successful disputeWork. -/
def disputeResultState (s : State) (job : Job) (jobId : Nat) : State :=
  { jobs := s.jobs.set jobId (disputedJob job)
    agentStats := fun a => if a = job.agent then
      { s.agentStats job.agent with
        disputedJobs := (s.agentStats job.agent).disputedJobs + 1 }
      else s.agentStats a
    bal := fun a => if a = job.poster then s.bal a + job.paidAmount else s.bal a
    boardBal := s.boardBal - job.paidAmount }

/-- The job record after cancellation. -/
def cancelledJob (job : Job) : Job :=
  { job with
    status := .Cancelled
    escrow := job.escrow - job.maxPrice
    paidOut := job.paidOut + job.maxPrice }

/-- State after a successful cancelJob. -/
def cancelResultState (s : State) (job : Job) (jobId : Nat) : State :=
  { jobs := s.jobs.set jobId (cancelledJob job)
    agentStats := s.agentStats
    bal := fun a => if a = job.poster then s.bal a + job.maxPrice else s.bal a
    boardBal := s.boardBal - job.maxPrice }

/-- The job record after expiry. -/
def expiredJob (job : Job) : Job :=
  { job with
    status := .Expired
    escrow := job.escrow - job.paidAmount
    paidOut := job.paidOut + job.paidAmount }

/-- State after a successful expireJob. -/
def expireResultState (s : State) (job : Job) (jobId : Nat) : State :=
  { jobs := s.jobs.set jobId (expiredJob job)
    agentStats := s.agentStats
    bal := fun a => if a = job.poster then s.bal a + job.paidAmount else s.bal a
    boardBal := s.boardBal - job.paidAmount }

/-! ## Price function lemmas -/

lemma getCurrentPrice_le_max (job : Job) (now : Nat)
    (hmin : job.minPrice ≤ job.maxPrice) (hdur : 0 < job.auctionDuration) :
    _getCurrentPrice job now ≤ job.maxPrice := by
  unfold _getCurrentPrice
  split
  · exact le_refl _
  · rename_i h
    have he : now - job.auctionStart ≤ job.auctionDuration := by omega
    have h1 : (job.maxPrice - job.minPrice) * (now - job.auctionStart) ≤
        (job.maxPrice - job.minPrice) * job.auctionDuration :=
      Nat.mul_le_mul (le_refl _) he
    have h2 : (job.maxPrice - job.minPrice) * (now - job.auctionStart) /
        job.auctionDuration ≤
        (job.maxPrice - job.minPrice) * job.auctionDuration /
          job.auctionDuration :=
      Nat.div_le_div_right h1
    rw [Nat.mul_div_cancel _ hdur] at h2
    omega

lemma min_le_getCurrentPrice (job : Job) (now : Nat)
    (hmin : job.minPrice ≤ job.maxPrice) :
    job.minPrice ≤ _getCurrentPrice job now := by
  unfold _getCurrentPrice
  split
  · exact hmin
  · exact Nat.le_add_right _ _

lemma getCurrentPrice_before_start (job : Job) (now : Nat)
    (hdur : 0 < job.auctionDuration) (hnow : now ≤ job.auctionStart) :
    _getCurrentPrice job now = job.minPrice := by
  unfold _getCurrentPrice
  rw [if_neg (by omega)]
  have : now - job.auctionStart = 0 := by omega
  simp [this]

lemma getCurrentPrice_late (job : Job) (now : Nat)
    (hnow : job.auctionStart + job.auctionDuration ≤ now) :
    _getCurrentPrice job now = job.maxPrice := by
  unfold _getCurrentPrice
  rw [if_pos hnow]

lemma getCurrentPrice_mono (job : Job)
    (hmin : job.minPrice ≤ job.maxPrice) (hdur : 0 < job.auctionDuration)
    {n₁ n₂ : Nat} (h : n₁ ≤ n₂) :
    _getCurrentPrice job n₁ ≤ _getCurrentPrice job n₂ := by
  by_cases h2 : job.auctionStart + job.auctionDuration ≤ n₂
  · rw [getCurrentPrice_late job n₂ h2]
    exact getCurrentPrice_le_max job n₁ hmin hdur
  · have h1 : ¬ job.auctionStart + job.auctionDuration ≤ n₁ := by omega
    unfold _getCurrentPrice
    rw [if_neg h1, if_neg h2]
    have hs : n₁ - job.auctionStart ≤ n₂ - job.auctionStart :=
      Nat.sub_le_sub_right h _
    have hd : (job.maxPrice - job.minPrice) * (n₁ - job.auctionStart) /
        job.auctionDuration ≤
        (job.maxPrice - job.minPrice) * (n₂ - job.auctionStart) /
          job.auctionDuration :=
      Nat.div_le_div_right (Nat.mul_le_mul (le_refl _) hs)
    omega

/-! ## C2 and C7 -/

/-- C2: for an existing job with maxPrice at least minPrice and a positive
auction duration, getCurrentPrice at any time not before auctionStart
returns minPrice plus (maxPrice - minPrice) times the clamped elapsed time
divided (truncating) by auctionDuration; it is minPrice at elapsed zero and
maxPrice once elapsed reaches auctionDuration; and it fails with
jobNotFound on any out-of-range job id. -/
theorem getCurrentPrice_spec (s : State) (jobId now : Nat) (job : Job)
    (hjob : s.jobs[jobId]? = some job)
    (hmin : job.minPrice ≤ job.maxPrice) (hdur : 0 < job.auctionDuration)
    (hnow : job.auctionStart ≤ now) :
    getCurrentPrice s jobId now =
      .ok (job.minPrice + (job.maxPrice - job.minPrice) *
        (min (now - job.auctionStart) job.auctionDuration) /
          job.auctionDuration)
    ∧ (now = job.auctionStart → getCurrentPrice s jobId now = .ok job.minPrice)
    ∧ (job.auctionStart + job.auctionDuration ≤ now →
        getCurrentPrice s jobId now = .ok job.maxPrice)
    ∧ (∀ i, s.jobs.length ≤ i → getCurrentPrice s i now = .error .jobNotFound) := by
  obtain ⟨hlt, hget⟩ := List.getElem?_eq_some.mp hjob
  have hval : getCurrentPrice s jobId now = .ok (_getCurrentPrice job now) := by
    unfold getCurrentPrice
    rw [dif_pos hlt, hget]
  refine ⟨?_, ?_, ?_, ?_⟩
  · rw [hval]
    unfold _getCurrentPrice
    split
    · rename_i hle
      have h1 : min (now - job.auctionStart) job.auctionDuration =
          job.auctionDuration := by omega
      rw [h1, Nat.mul_div_cancel _ hdur]
      congr 1
      omega
    · rename_i hle
      have h1 : min (now - job.auctionStart) job.auctionDuration =
          now - job.auctionStart := by omega
      rw [h1]
  · intro h0
    rw [hval, getCurrentPrice_before_start job now hdur (by omega)]
  · intro hlate
    rw [hval, getCurrentPrice_late job now hlate]
  · intro i hi
    unfold getCurrentPrice
    rw [dif_neg (by omega)]

/-- Witness for C2 at the worked scenario: price 150 at the midpoint of the
demo auction, minPrice at the start, maxPrice after the end, jobNotFound
past the end of the job array. -/
theorem getCurrentPrice_spec_witness :
    getCurrentPrice demoS1 0 30 = .ok 150 ∧
    getCurrentPrice demoS1 0 0 = .ok 100 ∧
    getCurrentPrice demoS1 0 75 = .ok 200 ∧
    getCurrentPrice demoS1 1 30 = .error .jobNotFound := by
  refine ⟨?_, ?_, ?_, ?_⟩
  · exact (getCurrentPrice_spec demoS1 0 30 demoJob rfl (by decide) (by decide)
      (by decide)).1
  · exact (getCurrentPrice_spec demoS1 0 0 demoJob rfl (by decide) (by decide)
      (by decide)).2.1 rfl
  · exact (getCurrentPrice_spec demoS1 0 75 demoJob rfl (by decide) (by decide)
      (by decide)).2.2.1 (by decide)
  · exact (getCurrentPrice_spec demoS1 0 30 demoJob rfl (by decide) (by decide)
      (by decide)).2.2.2 1 (by decide)

/-- C7: for a validly posted job (positive maxPrice at least minPrice,
positive auctionDuration) the price is minPrice at or before auctionStart
(elapsed zero), maxPrice at or after auctionStart + auctionDuration, is
monotonically non-decreasing in time, and always stays within the closed
interval from minPrice to maxPrice. -/
theorem price_monotone_bounds (job : Job)
    (hmax : 0 < job.maxPrice) (hmin : job.minPrice ≤ job.maxPrice)
    (hdur : 0 < job.auctionDuration) :
    (∀ now, now ≤ job.auctionStart → _getCurrentPrice job now = job.minPrice)
    ∧ (∀ now, job.auctionStart + job.auctionDuration ≤ now →
        _getCurrentPrice job now = job.maxPrice)
    ∧ (∀ n₁ n₂, n₁ ≤ n₂ → _getCurrentPrice job n₁ ≤ _getCurrentPrice job n₂)
    ∧ (∀ now, job.minPrice ≤ _getCurrentPrice job now ∧
        _getCurrentPrice job now ≤ job.maxPrice) := by
  refine ⟨?_, ?_, ?_, ?_⟩
  · intro now h0
    exact getCurrentPrice_before_start job now hdur h0
  · intro now hlate
    exact getCurrentPrice_late job now hlate
  · intro n₁ n₂ h
    exact getCurrentPrice_mono job hmin hdur h
  · intro now
    exact ⟨min_le_getCurrentPrice job now hmin,
      getCurrentPrice_le_max job now hmin hdur⟩

/-- Witness for C7 on the demo job: endpoint values, a monotone pair, and
the bounds at the midpoint. -/
theorem price_monotone_bounds_witness :
    _getCurrentPrice demoJob 0 = 100 ∧
    _getCurrentPrice demoJob 100 = 200 ∧
    _getCurrentPrice demoJob 10 ≤ _getCurrentPrice demoJob 50 ∧
    (100 ≤ _getCurrentPrice demoJob 30 ∧ _getCurrentPrice demoJob 30 ≤ 200) := by
  have h := price_monotone_bounds demoJob (by decide) (by decide) (by decide)
  exact ⟨h.1 0 (by decide), h.2.1 100 (by decide), h.2.2.1 10 50 (by decide),
    h.2.2.2 30⟩

/-! ## Inversion lemmas: what a successful call implies -/

lemma safeTransferFrom_ok {s : State} {payer : Addr} {amount : Nat}
    {s' : State} (h : safeTransferFrom s payer amount = .ok s') :
    amount ≤ s.bal payer ∧
    s' = { s with
      bal := fun a => if a = payer then s.bal a - amount else s.bal a,
      boardBal := s.boardBal + amount } := by
  unfold safeTransferFrom at h
  split at h
  · exact Except.noConfusion h
  · rename_i hle
    injection h with h2
    exact ⟨by omega, h2.symm⟩

lemma safeTransfer_ok {s : State} {dest : Addr} {amount : Nat}
    {s' : State} (h : safeTransfer s dest amount = .ok s') :
    amount ≤ s.boardBal ∧
    s' = { s with
      bal := fun a => if a = dest then s.bal a + amount else s.bal a,
      boardBal := s.boardBal - amount } := by
  unfold safeTransfer at h
  split at h
  · exact Except.noConfusion h
  · rename_i hle
    injection h with h2
    exact ⟨by omega, h2.symm⟩

lemma postJob_ok {s : State} {caller : Addr} {now : Nat} {d : String}
    {mn mx ad wd : Nat} {s' : State} {id : Nat}
    (h : postJob s caller now d mn mx ad wd = .ok (s', id)) :
    0 < mx ∧ mn ≤ mx ∧ 0 < ad ∧ 0 < wd ∧ d ≠ "" ∧ mx ≤ s.bal caller ∧
    id = s.jobs.length ∧ s' = postResultState s caller now d mn mx ad wd := by
  unfold postJob at h
  split at h
  · exact Except.noConfusion h
  split at h
  · exact Except.noConfusion h
  split at h
  · exact Except.noConfusion h
  split at h
  · exact Except.noConfusion h
  split at h
  · exact Except.noConfusion h
  rename_i h1 h2 h3 h4 h5
  split at h
  · exact Except.noConfusion h
  · rename_i s1 hst
    obtain ⟨hft, hs1⟩ := safeTransferFrom_ok hst
    subst hs1
    simp only [Except.ok.injEq, Prod.mk.injEq] at h
    obtain ⟨hA, hB⟩ := h
    refine ⟨by omega, by omega, by omega, by omega, h5, hft, hB.symm, hA.symm⟩

lemma claimJob_ok {s : State} {caller : Addr} {now jobId agentId : Nat}
    {s' : State} (h : claimJob s caller now jobId agentId = .ok s') :
    ∃ job, s.jobs[jobId]? = some job ∧ job.status = .Open ∧
      caller ≠ job.poster ∧
      job.maxPrice - _getCurrentPrice job now ≤ s.boardBal ∧
      s' = claimResultState s job caller agentId now jobId := by
  unfold claimJob at h
  split at h
  · exact Except.noConfusion h
  · rename_i job hjob
    split at h
    · exact Except.noConfusion h
    split at h
    · exact Except.noConfusion h
    rename_i hne hpos
    refine ⟨job, hjob, not_not.mp hne, hpos, ?_⟩
    dsimp only at h
    split at h
    · rename_i hgt
      obtain ⟨hle, hs'⟩ := safeTransfer_ok h
      subst hs'
      exact ⟨hle, rfl⟩
    · rename_i hz
      injection h with h2
      subst h2
      have h0 : job.maxPrice - _getCurrentPrice job now = 0 := by omega
      constructor
      · omega
      · show _ = claimResultState s job caller agentId now jobId
        unfold claimResultState
        rw [h0]
        simp only [Nat.add_zero, Nat.sub_zero, ite_self]

lemma submitWork_ok {s : State} {caller : Addr} {now jobId : Nat}
    {uri : String} {s' : State}
    (h : submitWork s caller now jobId uri = .ok s') :
    ∃ job, s.jobs[jobId]? = some job ∧ caller = job.agent ∧
      job.status = .Claimed ∧ uri ≠ "" ∧
      now ≤ job.claimedAt + job.workDeadline ∧
      s' = submitResultState s job jobId uri := by
  unfold submitWork at h
  split at h
  · exact Except.noConfusion h
  · rename_i job hjob
    split at h
    · exact Except.noConfusion h
    split at h
    · exact Except.noConfusion h
    split at h
    · exact Except.noConfusion h
    split at h
    · exact Except.noConfusion h
    rename_i hag hst huri hdl
    injection h with h2
    exact ⟨job, hjob, not_not.mp hag, not_not.mp hst, huri,
      not_not.mp hdl, h2.symm⟩

lemma approveWork_ok {s : State} {caller : Addr} {jobId rating : Nat}
    {s' : State} (h : approveWork s caller jobId rating = .ok s') :
    ∃ job, s.jobs[jobId]? = some job ∧ caller = job.poster ∧
      job.status = .Submitted ∧ rating ≤ 100 ∧
      job.paidAmount ≤ s.boardBal ∧
      s' = approveResultState s job jobId rating := by
  unfold approveWork at h
  split at h
  · exact Except.noConfusion h
  · rename_i job hjob
    split at h
    · exact Except.noConfusion h
    split at h
    · exact Except.noConfusion h
    split at h
    · exact Except.noConfusion h
    rename_i hc hst hr
    obtain ⟨hle, hs'⟩ := safeTransfer_ok h
    subst hs'
    exact ⟨job, hjob, not_not.mp hc, not_not.mp hst, not_not.mp hr, hle, rfl⟩

lemma disputeWork_ok {s : State} {caller : Addr} {jobId : Nat}
    {s' : State} (h : disputeWork s caller jobId = .ok s') :
    ∃ job, s.jobs[jobId]? = some job ∧ caller = job.poster ∧
      job.status = .Submitted ∧
      job.paidAmount ≤ s.boardBal ∧
      s' = disputeResultState s job jobId := by
  unfold disputeWork at h
  split at h
  · exact Except.noConfusion h
  · rename_i job hjob
    split at h
    · exact Except.noConfusion h
    split at h
    · exact Except.noConfusion h
    rename_i hc hst
    obtain ⟨hle, hs'⟩ := safeTransfer_ok h
    subst hs'
    exact ⟨job, hjob, not_not.mp hc, not_not.mp hst, hle, rfl⟩

lemma cancelJob_ok {s : State} {caller : Addr} {jobId : Nat}
    {s' : State} (h : cancelJob s caller jobId = .ok s') :
    ∃ job, s.jobs[jobId]? = some job ∧ caller = job.poster ∧
      job.status = .Open ∧
      job.maxPrice ≤ s.boardBal ∧
      s' = cancelResultState s job jobId := by
  unfold cancelJob at h
  split at h
  · exact Except.noConfusion h
  · rename_i job hjob
    split at h
    · exact Except.noConfusion h
    split at h
    · exact Except.noConfusion h
    rename_i hc hst
    obtain ⟨hle, hs'⟩ := safeTransfer_ok h
    subst hs'
    exact ⟨job, hjob, not_not.mp hc, not_not.mp hst, hle, rfl⟩

lemma expireJob_ok {s : State} {now jobId : Nat} {s' : State}
    (h : expireJob s now jobId = .ok s') :
    ∃ job, s.jobs[jobId]? = some job ∧ job.status = .Claimed ∧
      job.claimedAt + job.workDeadline < now ∧
      job.paidAmount ≤ s.boardBal ∧
      s' = expireResultState s job jobId := by
  unfold expireJob at h
  split at h
  · exact Except.noConfusion h
  · rename_i job hjob
    split at h
    · exact Except.noConfusion h
    split at h
    · exact Except.noConfusion h
    rename_i hst hdl
    obtain ⟨hle, hs'⟩ := safeTransfer_ok h
    subst hs'
    exact ⟨job, hjob, not_not.mp hst, not_not.mp hdl, hle, rfl⟩

/-! ## Success characterizations -/

lemma safeTransfer_succeeds {s : State} {dest : Addr} {amount : Nat}
    (h : amount ≤ s.boardBal) :
    safeTransfer s dest amount = .ok { s with
      bal := fun a => if a = dest then s.bal a + amount else s.bal a,
      boardBal := s.boardBal - amount } := by
  unfold safeTransfer
  rw [if_neg (by omega)]

lemma claimResultState_zero {s : State} {job : Job} {caller : Addr}
    {agentId now jobId : Nat}
    (h0 : job.maxPrice - _getCurrentPrice job now = 0) :
    claimResultState s job caller agentId now jobId =
      { s with jobs := s.jobs.set jobId (claimedJob job caller agentId now) } := by
  unfold claimResultState
  rw [h0]
  simp only [Nat.add_zero, Nat.sub_zero, ite_self]

lemma claimJob_succeeds {s : State} {caller : Addr} {now jobId agentId : Nat}
    {job : Job} (hjob : s.jobs[jobId]? = some job)
    (hopen : job.status = .Open) (hne : caller ≠ job.poster)
    (hbal : job.maxPrice - _getCurrentPrice job now ≤ s.boardBal) :
    claimJob s caller now jobId agentId =
      .ok (claimResultState s job caller agentId now jobId) := by
  unfold claimJob
  simp only [hjob]
  rw [if_neg (by simp [hopen]), if_neg hne]
  by_cases hgt : job.maxPrice - _getCurrentPrice job now > 0
  · rw [if_pos hgt]
    exact safeTransfer_succeeds hbal
  · rw [if_neg hgt, claimResultState_zero (by omega)]

lemma submitWork_succeeds {s : State} {caller : Addr} {now jobId : Nat}
    {uri : String} {job : Job} (hjob : s.jobs[jobId]? = some job)
    (hag : caller = job.agent) (hst : job.status = .Claimed)
    (huri : uri ≠ "") (hdl : now ≤ job.claimedAt + job.workDeadline) :
    submitWork s caller now jobId uri = .ok (submitResultState s job jobId uri) := by
  unfold submitWork
  simp only [hjob]
  rw [if_neg (by simp [hag]), if_neg (by simp [hst]), if_neg huri,
    if_neg (show ¬ ¬ now ≤ job.claimedAt + job.workDeadline by omega)]
  rfl

lemma approveWork_eq {s : State} {caller : Addr} {jobId rating : Nat}
    {job : Job} (hjob : s.jobs[jobId]? = some job)
    (hc : caller = job.poster) (hst : job.status = .Submitted)
    (hr : rating ≤ 100) :
    approveWork s caller jobId rating =
      if s.boardBal < job.paidAmount then .error .transferFailed
      else .ok (approveResultState s job jobId rating) := by
  unfold approveWork
  simp only [hjob]
  rw [if_neg (by simp [hc]), if_neg (by simp [hst]),
    if_neg (show ¬ ¬ rating ≤ 100 by omega)]
  rfl

lemma disputeWork_eq {s : State} {caller : Addr} {jobId : Nat}
    {job : Job} (hjob : s.jobs[jobId]? = some job)
    (hc : caller = job.poster) (hst : job.status = .Submitted) :
    disputeWork s caller jobId =
      if s.boardBal < job.paidAmount then .error .transferFailed
      else .ok (disputeResultState s job jobId) := by
  unfold disputeWork
  simp only [hjob]
  rw [if_neg (by simp [hc]), if_neg (by simp [hst])]
  rfl

lemma cancelJob_eq {s : State} {caller : Addr} {jobId : Nat}
    {job : Job} (hjob : s.jobs[jobId]? = some job)
    (hc : caller = job.poster) (hst : job.status = .Open) :
    cancelJob s caller jobId =
      if s.boardBal < job.maxPrice then .error .transferFailed
      else .ok (cancelResultState s job jobId) := by
  unfold cancelJob
  simp only [hjob]
  rw [if_neg (by simp [hc]), if_neg (by simp [hst])]
  rfl

lemma expireJob_eq {s : State} {now jobId : Nat} {job : Job}
    (hjob : s.jobs[jobId]? = some job) (hst : job.status = .Claimed)
    (hdl : job.claimedAt + job.workDeadline < now) :
    expireJob s now jobId =
      if s.boardBal < job.paidAmount then .error .transferFailed
      else .ok (expireResultState s job jobId) := by
  unfold expireJob
  simp only [hjob]
  rw [if_neg (by simp [hst]),
    if_neg (show ¬ ¬ job.claimedAt + job.workDeadline < now by omega)]
  rfl

/-! ## Error characterizations on a wrong-status job -/

lemma claimJob_not_open {s : State} {caller : Addr} {now jobId agentId : Nat}
    {job : Job} (hjob : s.jobs[jobId]? = some job)
    (hst : job.status ≠ .Open) :
    claimJob s caller now jobId agentId = .error .jobNotOpen := by
  unfold claimJob
  simp only [hjob]
  rw [if_pos hst]

lemma submitWork_not_claimed {s : State} {caller : Addr} {now jobId : Nat}
    {uri : String} {job : Job} (hjob : s.jobs[jobId]? = some job)
    (hst : job.status ≠ .Claimed) :
    submitWork s caller now jobId uri =
      .error (if caller = job.agent then .jobNotClaimed else .onlyAgent) := by
  unfold submitWork
  simp only [hjob]
  by_cases hc : caller = job.agent
  · rw [if_neg (by simp [hc]), if_pos hst, if_pos hc]
  · rw [if_pos hc, if_neg hc]

lemma approveWork_not_submitted {s : State} {caller : Addr}
    {jobId rating : Nat} {job : Job} (hjob : s.jobs[jobId]? = some job)
    (hst : job.status ≠ .Submitted) :
    approveWork s caller jobId rating =
      .error (if caller = job.poster then .jobNotSubmitted else .onlyPoster) := by
  unfold approveWork
  simp only [hjob]
  by_cases hc : caller = job.poster
  · rw [if_neg (by simp [hc]), if_pos hst, if_pos hc]
  · rw [if_pos hc, if_neg hc]

lemma disputeWork_not_submitted {s : State} {caller : Addr} {jobId : Nat}
    {job : Job} (hjob : s.jobs[jobId]? = some job)
    (hst : job.status ≠ .Submitted) :
    disputeWork s caller jobId =
      .error (if caller = job.poster then .jobNotSubmitted else .onlyPoster) := by
  unfold disputeWork
  simp only [hjob]
  by_cases hc : caller = job.poster
  · rw [if_neg (by simp [hc]), if_pos hst, if_pos hc]
  · rw [if_pos hc, if_neg hc]

lemma cancelJob_not_open {s : State} {caller : Addr} {jobId : Nat}
    {job : Job} (hjob : s.jobs[jobId]? = some job)
    (hst : job.status ≠ .Open) :
    cancelJob s caller jobId =
      .error (if caller = job.poster then .jobNotOpen else .onlyPoster) := by
  unfold cancelJob
  simp only [hjob]
  by_cases hc : caller = job.poster
  · rw [if_neg (by simp [hc]), if_pos hst, if_pos hc]
  · rw [if_pos hc, if_neg hc]

lemma expireJob_not_claimed {s : State} {now jobId : Nat} {job : Job}
    (hjob : s.jobs[jobId]? = some job) (hst : job.status ≠ .Claimed) :
    expireJob s now jobId = .error .jobNotClaimed := by
  unfold expireJob
  simp only [hjob]
  rw [if_pos hst]

/-! ## The system invariant is preserved by every operation -/

lemma mem_of_getElem_some {l : List Job} {i : Nat} {a : Job}
    (h : l[i]? = some a) : a ∈ l := by
  obtain ⟨hlt, hget⟩ := List.getElem?_eq_some.mp h
  exact hget ▸ List.getElem_mem hlt

lemma sum_map_set (f : Job → Nat) :
    ∀ (l : List Job) (i : Nat) (a b : Job), l[i]? = some a →
      ((l.set i b).map f).sum + f a = (l.map f).sum + f b := by
  intro l
  induction l with
  | nil => intro i a b h; simp at h
  | cons x xs ih =>
    intro i a b h
    cases i with
    | zero =>
      simp only [List.getElem?_cons_zero, Option.some.injEq] at h
      subst h
      simp only [List.set_cons_zero, List.map_cons, List.sum_cons]
      omega
    | succ n =>
      simp only [List.getElem?_cons_succ] at h
      have := ih n a b h
      simp only [List.set_cons_succ, List.map_cons, List.sum_cons]
      omega

lemma escrow_le_sum {l : List Job} {i : Nat} {a : Job}
    (h : l[i]? = some a) : a.escrow ≤ (l.map Job.escrow).sum :=
  List.single_le_sum (fun y _ => Nat.zero_le y) _
    (List.mem_map_of_mem Job.escrow (mem_of_getElem_some h))

lemma stateInv_post {s : State} {caller : Addr} {now : Nat} {d : String}
    {mn mx ad wd : Nat} {s' : State} {id : Nat} (hI : StateInv s)
    (h : postJob s caller now d mn mx ad wd = .ok (s', id)) : StateInv s' := by
  obtain ⟨hmx, hmn, had, hwd, hd, hbal, hid, hs'⟩ := postJob_ok h
  subst hs'
  obtain ⟨hJ, hB⟩ := hI
  constructor
  · intro j hj
    rcases List.mem_append.mp hj with hj | hj
    · exact hJ j hj
    · rw [List.mem_singleton.mp hj]
      dsimp only [JobInv, newJob]
      refine ⟨hmn, had, by omega, fun _ => ⟨rfl, rfl⟩, fun hc => ?_⟩
      rcases hc with hc | hc <;> exact JobStatus.noConfusion hc
  · show s.boardBal + mx = _
    simp only [postResultState, newJob, List.map_append, List.sum_append,
      List.map_cons, List.map_nil, List.sum_cons, List.sum_nil]
    omega

lemma stateInv_claim {s : State} {caller : Addr} {now jobId agentId : Nat}
    {s' : State} (hI : StateInv s)
    (h : claimJob s caller now jobId agentId = .ok s') : StateInv s' := by
  obtain ⟨job, hjob, hopen, hne, hbal, hs'⟩ := claimJob_ok h
  subst hs'
  obtain ⟨hJ, hB⟩ := hI
  obtain ⟨h1, h2, h3, h4, h5⟩ := hJ job (mem_of_getElem_some hjob)
  obtain ⟨hso, hpo⟩ := h4 hopen
  have hprice := getCurrentPrice_le_max job now h1 h2
  have hsum := sum_map_set Job.escrow s.jobs jobId job
    (claimedJob job caller agentId now) hjob
  have hle := escrow_le_sum hjob
  constructor
  · intro j hj
    rcases List.mem_or_eq_of_mem_set hj with hj | rfl
    · exact hJ j hj
    · dsimp only [JobInv, claimedJob]
      refine ⟨h1, h2, by omega, fun hc => JobStatus.noConfusion hc,
        fun _ => by omega⟩
  · show s.boardBal - _ = _
    simp only [claimResultState, claimedJob] at hsum ⊢
    omega

lemma stateInv_submit {s : State} {caller : Addr} {now jobId : Nat}
    {uri : String} {s' : State} (hI : StateInv s)
    (h : submitWork s caller now jobId uri = .ok s') : StateInv s' := by
  obtain ⟨job, hjob, hag, hst, huri, hdl, hs'⟩ := submitWork_ok h
  subst hs'
  obtain ⟨hJ, hB⟩ := hI
  obtain ⟨h1, h2, h3, h4, h5⟩ := hJ job (mem_of_getElem_some hjob)
  have hesc := h5 (Or.inl hst)
  have hsum := sum_map_set Job.escrow s.jobs jobId job
    (submittedJob job uri) hjob
  constructor
  · intro j hj
    rcases List.mem_or_eq_of_mem_set hj with hj | rfl
    · exact hJ j hj
    · dsimp only [JobInv, submittedJob]
      exact ⟨h1, h2, h3, fun hc => JobStatus.noConfusion hc,
        fun _ => hesc⟩
  · show s.boardBal = _
    simp only [submitResultState, submittedJob] at hsum ⊢
    omega

lemma stateInv_approve {s : State} {caller : Addr} {jobId rating : Nat}
    {s' : State} (hI : StateInv s)
    (h : approveWork s caller jobId rating = .ok s') : StateInv s' := by
  obtain ⟨job, hjob, hc, hst, hr, hle, hs'⟩ := approveWork_ok h
  subst hs'
  obtain ⟨hJ, hB⟩ := hI
  obtain ⟨h1, h2, h3, h4, h5⟩ := hJ job (mem_of_getElem_some hjob)
  have hesc := h5 (Or.inr hst)
  have hsum := sum_map_set Job.escrow s.jobs jobId job (approvedJob job rating) hjob
  have hles := escrow_le_sum hjob
  constructor
  · intro j hj
    rcases List.mem_or_eq_of_mem_set hj with hj | rfl
    · exact hJ j hj
    · dsimp only [JobInv, approvedJob]
      refine ⟨h1, h2, by omega, fun hc => JobStatus.noConfusion hc, fun hc => ?_⟩
      rcases hc with hc | hc <;> exact JobStatus.noConfusion hc
  · show s.boardBal - _ = _
    simp only [approveResultState, approvedJob] at hsum ⊢
    omega

lemma stateInv_dispute {s : State} {caller : Addr} {jobId : Nat}
    {s' : State} (hI : StateInv s)
    (h : disputeWork s caller jobId = .ok s') : StateInv s' := by
  obtain ⟨job, hjob, hc, hst, hle, hs'⟩ := disputeWork_ok h
  subst hs'
  obtain ⟨hJ, hB⟩ := hI
  obtain ⟨h1, h2, h3, h4, h5⟩ := hJ job (mem_of_getElem_some hjob)
  have hesc := h5 (Or.inr hst)
  have hsum := sum_map_set Job.escrow s.jobs jobId job (disputedJob job) hjob
  have hles := escrow_le_sum hjob
  constructor
  · intro j hj
    rcases List.mem_or_eq_of_mem_set hj with hj | rfl
    · exact hJ j hj
    · dsimp only [JobInv, disputedJob]
      refine ⟨h1, h2, by omega, fun hc => JobStatus.noConfusion hc, fun hc => ?_⟩
      rcases hc with hc | hc <;> exact JobStatus.noConfusion hc
  · show s.boardBal - _ = _
    simp only [disputeResultState, disputedJob] at hsum ⊢
    omega

lemma stateInv_cancel {s : State} {caller : Addr} {jobId : Nat}
    {s' : State} (hI : StateInv s)
    (h : cancelJob s caller jobId = .ok s') : StateInv s' := by
  obtain ⟨job, hjob, hc, hst, hle, hs'⟩ := cancelJob_ok h
  subst hs'
  obtain ⟨hJ, hB⟩ := hI
  obtain ⟨h1, h2, h3, h4, h5⟩ := hJ job (mem_of_getElem_some hjob)
  obtain ⟨hso, hpo⟩ := h4 hst
  have hsum := sum_map_set Job.escrow s.jobs jobId job (cancelledJob job) hjob
  have hles := escrow_le_sum hjob
  constructor
  · intro j hj
    rcases List.mem_or_eq_of_mem_set hj with hj | rfl
    · exact hJ j hj
    · dsimp only [JobInv, cancelledJob]
      refine ⟨h1, h2, by omega, fun hc => JobStatus.noConfusion hc, fun hc => ?_⟩
      rcases hc with hc | hc <;> exact JobStatus.noConfusion hc
  · show s.boardBal - _ = _
    simp only [cancelResultState, cancelledJob] at hsum ⊢
    omega

lemma stateInv_expire {s : State} {now jobId : Nat} {s' : State}
    (hI : StateInv s)
    (h : expireJob s now jobId = .ok s') : StateInv s' := by
  obtain ⟨job, hjob, hst, hdl, hle, hs'⟩ := expireJob_ok h
  subst hs'
  obtain ⟨hJ, hB⟩ := hI
  obtain ⟨h1, h2, h3, h4, h5⟩ := hJ job (mem_of_getElem_some hjob)
  have hesc := h5 (Or.inl hst)
  have hsum := sum_map_set Job.escrow s.jobs jobId job (expiredJob job) hjob
  have hles := escrow_le_sum hjob
  constructor
  · intro j hj
    rcases List.mem_or_eq_of_mem_set hj with hj | rfl
    · exact hJ j hj
    · dsimp only [JobInv, expiredJob]
      refine ⟨h1, h2, by omega, fun hc => JobStatus.noConfusion hc, fun hc => ?_⟩
      rcases hc with hc | hc <;> exact JobStatus.noConfusion hc
  · show s.boardBal - _ = _
    simp only [expireResultState, expiredJob] at hsum ⊢
    omega

lemma stateInv_step {s s' : State} (hI : StateInv s) (h : Step s s') :
    StateInv s' := by
  cases h with
  | post => rename_i hop; exact stateInv_post hI hop
  | claim => rename_i hop; exact stateInv_claim hI hop
  | submit => rename_i hop; exact stateInv_submit hI hop
  | approve => rename_i hop; exact stateInv_approve hI hop
  | dispute => rename_i hop; exact stateInv_dispute hI hop
  | cancel => rename_i hop; exact stateInv_cancel hI hop
  | expire => rename_i hop; exact stateInv_expire hI hop

lemma reachable_stateInv {s : State} (h : Reachable s) : StateInv s := by
  induction h with
  | init bal0 => exact ⟨fun j hj => absurd hj (List.not_mem_nil j), rfl⟩
  | step s s' hr hstep ih => exact stateInv_step ih hstep

/-! ## Terminal statuses -/

lemma terminal_ne_open {st : JobStatus} (h : Terminal st) : st ≠ .Open := by
  rcases h with h | h | h | h <;> subst h <;> simp

lemma terminal_ne_claimed {st : JobStatus} (h : Terminal st) :
    st ≠ .Claimed := by
  rcases h with h | h | h | h <;> subst h <;> simp

lemma terminal_ne_submitted {st : JobStatus} (h : Terminal st) :
    st ≠ .Submitted := by
  rcases h with h | h | h | h <;> subst h <;> simp

lemma set_preserving {s : State} {i k : Nat} {job a b : Job}
    (hk : s.jobs[k]? = some job) (hi : s.jobs[i]? = some a)
    (hstat : a.status ≠ job.status) :
    (s.jobs.set i b)[k]? = some job := by
  by_cases hik : i = k
  · subst hik
    rw [hk] at hi
    cases hi
    exact absurd rfl hstat
  · rw [List.getElem?_set_ne hik]
    exact hk

lemma step_preserves_terminal_job {s s' : State} {jobId : Nat} {job : Job}
    (hstep : Step s s') (hjob : s.jobs[jobId]? = some job)
    (hterm : Terminal job.status) : s'.jobs[jobId]? = some job := by
  have hlt := (List.getElem?_eq_some.mp hjob).1
  cases hstep with
  | post =>
    rename_i hop
    obtain ⟨_, _, _, _, _, _, _, hs'⟩ := postJob_ok hop
    subst hs'
    show (s.jobs ++ _)[jobId]? = some job
    rw [List.getElem?_append, if_pos hlt]
    exact hjob
  | claim =>
    rename_i hop
    obtain ⟨job2, hjob2, hopen2, _, _, hs'⟩ := claimJob_ok hop
    subst hs'
    exact set_preserving hjob hjob2
      (by rw [hopen2]; exact Ne.symm (terminal_ne_open hterm))
  | submit =>
    rename_i hop
    obtain ⟨job2, hjob2, _, hcl2, _, _, hs'⟩ := submitWork_ok hop
    subst hs'
    exact set_preserving hjob hjob2
      (by rw [hcl2]; exact Ne.symm (terminal_ne_claimed hterm))
  | approve =>
    rename_i hop
    obtain ⟨job2, hjob2, _, hsub2, _, _, hs'⟩ := approveWork_ok hop
    subst hs'
    exact set_preserving hjob hjob2
      (by rw [hsub2]; exact Ne.symm (terminal_ne_submitted hterm))
  | dispute =>
    rename_i hop
    obtain ⟨job2, hjob2, _, hsub2, _, hs'⟩ := disputeWork_ok hop
    subst hs'
    exact set_preserving hjob hjob2
      (by rw [hsub2]; exact Ne.symm (terminal_ne_submitted hterm))
  | cancel =>
    rename_i hop
    obtain ⟨job2, hjob2, _, hop2, _, hs'⟩ := cancelJob_ok hop
    subst hs'
    exact set_preserving hjob hjob2
      (by rw [hop2]; exact Ne.symm (terminal_ne_open hterm))
  | expire =>
    rename_i hop
    obtain ⟨job2, hjob2, hcl2, _, _, hs'⟩ := expireJob_ok hop
    subst hs'
    exact set_preserving hjob hjob2
      (by rw [hcl2]; exact Ne.symm (terminal_ne_claimed hterm))

/-! ## C1 -/

/-- C1: value conservation per job.  In every reachable state, every job
still holds in escrow plus has already paid out exactly its original
maxPrice, and the CLAWD the board holds is exactly the sum of the per-job
escrows, so no operation creates or destroys value. -/
theorem value_conservation (s : State) (hs : Reachable s) :
    (∀ j ∈ s.jobs, j.escrow + j.paidOut = j.maxPrice) ∧
    s.boardBal = (s.jobs.map Job.escrow).sum := by
  obtain ⟨hJ, hB⟩ := reachable_stateInv hs
  exact ⟨fun j hj => (hJ j hj).2.2.1, hB⟩

/-- Witness for C1 at the reachable state demoS1 obtained by posting the
demo job on a fresh deployment. -/
theorem value_conservation_witness :
    demoJob.escrow + demoJob.paidOut = demoJob.maxPrice ∧
    demoS1.boardBal = (demoS1.jobs.map Job.escrow).sum := by
  have h0 : Reachable demoS0 := Reachable.init demoBal
  have hp : postJob demoS0 1 0 "job" 100 200 60 300 = Except.ok (demoS1, 0) := rfl
  have h1 : Reachable demoS1 := Reachable.step demoS0 demoS1 h0
    (Step.post demoS0 1 0 "job" 100 200 60 300 demoS1 0 hp)
  have h := value_conservation demoS1 h1
  exact ⟨h.1 demoJob (by simp [demoS1]), h.2⟩

/-! ## C3 -/

/-- C3: claimJob postcondition.  For an Open job and a caller other than
the poster, claimJob evaluates the auction price at the instant of the
claim and, whenever the board can pay the refund, succeeds with status
Claimed, agent and agentId recorded, claimedAt = now, paidAmount = price,
and exactly maxPrice - price transferred back to the poster; when the
price equals maxPrice the refund is zero and the transfer is skipped as a
no-op, balances untouched. -/
theorem claimJob_spec (s : State) (caller : Addr) (now jobId agentId : Nat)
    (job : Job) (hjob : s.jobs[jobId]? = some job)
    (hopen : job.status = .Open) (hne : caller ≠ job.poster) :
    (job.maxPrice - _getCurrentPrice job now ≤ s.boardBal →
      claimJob s caller now jobId agentId =
        .ok (claimResultState s job caller agentId now jobId)) ∧
    (claimedJob job caller agentId now).status = .Claimed ∧
    (claimedJob job caller agentId now).agent = caller ∧
    (claimedJob job caller agentId now).agentId = agentId ∧
    (claimedJob job caller agentId now).claimedAt = now ∧
    (claimedJob job caller agentId now).paidAmount = _getCurrentPrice job now ∧
    (claimResultState s job caller agentId now jobId).bal job.poster =
      s.bal job.poster + (job.maxPrice - _getCurrentPrice job now) ∧
    (_getCurrentPrice job now = job.maxPrice →
      claimJob s caller now jobId agentId =
        .ok { s with jobs := s.jobs.set jobId (claimedJob job caller agentId now) }) := by
  refine ⟨fun hbal => claimJob_succeeds hjob hopen hne hbal,
    rfl, rfl, rfl, rfl, rfl, by simp [claimResultState], fun hp => ?_⟩
  have h0 : job.maxPrice - _getCurrentPrice job now = 0 := by omega
  rw [claimJob_succeeds hjob hopen hne (by omega), claimResultState_zero h0]

/-- Witness for C3 on the worked scenario: claiming the demo job at time 30
locks 150, refunds 50 to the poster, and leaves 150 escrowed. -/
theorem claimJob_spec_witness :
    claimJob demoS1 2 30 0 7 = .ok (claimResultState demoS1 demoJob 2 7 30 0) ∧
    (claimedJob demoJob 2 7 30).paidAmount = 150 ∧
    (claimResultState demoS1 demoJob 2 7 30 0).bal 1 = 50 ∧
    (claimResultState demoS1 demoJob 2 7 30 0).boardBal = 150 ∧
    (claimedJob demoJob 2 7 30).escrow = 150 := by
  have h := claimJob_spec demoS1 2 30 0 7 demoJob rfl rfl (by decide)
  exact ⟨h.1 (by decide), by decide, by decide, by decide, by decide⟩

/-! ## C4 -/

/-- Counterexample to C4 as stated: on the terminal (Completed) job of
demoS4, approveWork invoked by account 2 (not the poster) fails with the
authorization error onlyPoster, not with the state error jobNotSubmitted,
because the contract checks the caller before the status. -/
theorem terminal_state_error_counterexample :
    demoS4.jobs[0]? = some demoDoneJob ∧
    Terminal demoDoneJob.status ∧
    approveWork demoS4 2 0 50 = .error .onlyPoster ∧
    Err.onlyPoster ≠ Err.jobNotSubmitted := by
  exact ⟨rfl, Or.inl rfl, rfl, by decide⟩

/-- C4 (amended): terminal states are absorbing.  Every mutator invoked on
a terminal job fails and therefore changes no job field, moves no funds
and touches no statistics (an error rolls the transaction back wholesale);
claimJob and expireJob always fail with their state errors, while
submitWork, approveWork, disputeWork and cancelJob fail with the
corresponding state error exactly when the caller-authorization
precondition holds and with the authorization error otherwise; and along
any sequence of successful transactions the job record never changes
again, so it never re-enters Open, Claimed or Submitted. -/
theorem terminal_states_absorbing (s : State) (jobId : Nat) (job : Job)
    (hjob : s.jobs[jobId]? = some job) (hterm : Terminal job.status) :
    (∀ caller now agentId,
      claimJob s caller now jobId agentId = .error .jobNotOpen) ∧
    (∀ now, expireJob s now jobId = .error .jobNotClaimed) ∧
    (∀ caller now uri, submitWork s caller now jobId uri =
      .error (if caller = job.agent then .jobNotClaimed else .onlyAgent)) ∧
    (∀ caller rating, approveWork s caller jobId rating =
      .error (if caller = job.poster then .jobNotSubmitted else .onlyPoster)) ∧
    (∀ caller, disputeWork s caller jobId =
      .error (if caller = job.poster then .jobNotSubmitted else .onlyPoster)) ∧
    (∀ caller, cancelJob s caller jobId =
      .error (if caller = job.poster then .jobNotOpen else .onlyPoster)) ∧
    (∀ s', Relation.ReflTransGen Step s s' → s'.jobs[jobId]? = some job) := by
  refine ⟨fun caller now agentId =>
      claimJob_not_open hjob (terminal_ne_open hterm),
    fun now => expireJob_not_claimed hjob (terminal_ne_claimed hterm),
    fun caller now uri =>
      submitWork_not_claimed hjob (terminal_ne_claimed hterm),
    fun caller rating =>
      approveWork_not_submitted hjob (terminal_ne_submitted hterm),
    fun caller => disputeWork_not_submitted hjob (terminal_ne_submitted hterm),
    fun caller => cancelJob_not_open hjob (terminal_ne_open hterm),
    fun s' hstar => ?_⟩
  induction hstar with
  | refl => exact hjob
  | tail h1 h2 ih => exact step_preserves_terminal_job h2 ih hterm

/-- Witness for C4 (amended) on the Completed demo job. -/
theorem terminal_states_absorbing_witness :
    claimJob demoS4 3 40 0 9 = .error .jobNotOpen ∧
    expireJob demoS4 1000 0 = .error .jobNotClaimed ∧
    submitWork demoS4 2 40 0 "x" = .error .jobNotClaimed ∧
    approveWork demoS4 1 0 50 = .error .jobNotSubmitted ∧
    disputeWork demoS4 1 0 = .error .jobNotSubmitted ∧
    cancelJob demoS4 1 0 = .error .jobNotOpen ∧
    demoS4.jobs[0]? = some demoDoneJob := by
  have h := terminal_states_absorbing demoS4 0 demoDoneJob rfl (Or.inl rfl)
  exact ⟨h.1 3 40 9, h.2.1 1000, h.2.2.1 2 40 "x", h.2.2.2.1 1 50,
    h.2.2.2.2.1 1, h.2.2.2.2.2.1 1,
    h.2.2.2.2.2.2 demoS4 Relation.ReflTransGen.refl⟩

/-! ## C10 -/

/-- C10: an Open job never expires from the auction ending.  For an Open
job, at any time at or past the end of the auction window a non-poster
claim still succeeds, locks exactly maxPrice and refunds nothing; at any
time whatsoever the claim succeeds whenever the board can pay the refund;
and cancelJob by the poster succeeds independent of time (the operation
reads no clock).  Mere passage of time never changes the status. -/
theorem open_job_never_expires (s : State) (caller : Addr)
    (jobId agentId : Nat) (job : Job)
    (hjob : s.jobs[jobId]? = some job) (hopen : job.status = .Open)
    (hmin : job.minPrice ≤ job.maxPrice) (hne : caller ≠ job.poster) :
    (∀ now, job.auctionStart + job.auctionDuration ≤ now →
      claimJob s caller now jobId agentId =
        .ok { s with jobs := s.jobs.set jobId (claimedJob job caller agentId now) } ∧
      (claimedJob job caller agentId now).paidAmount = job.maxPrice) ∧
    (∀ now, job.maxPrice - _getCurrentPrice job now ≤ s.boardBal →
      claimJob s caller now jobId agentId =
        .ok (claimResultState s job caller agentId now jobId)) ∧
    (job.maxPrice ≤ s.boardBal →
      cancelJob s job.poster jobId = .ok (cancelResultState s job jobId)) := by
  refine ⟨fun now hlate => ?_, fun now hbal => claimJob_succeeds hjob hopen hne hbal,
    fun hbal => ?_⟩
  · have hp := getCurrentPrice_late job now hlate
    have h0 : job.maxPrice - _getCurrentPrice job now = 0 := by omega
    constructor
    · rw [claimJob_succeeds hjob hopen hne (by omega), claimResultState_zero h0]
    · show _getCurrentPrice job now = job.maxPrice
      exact hp
  · rw [cancelJob_eq hjob rfl hopen, if_neg (by omega)]

/-- Witness for C10: at time 100 (past the 60-second auction) the demo job
is still claimable at price 200 with no refund, and still cancellable. -/
theorem open_job_never_expires_witness :
    claimJob demoS1 2 100 0 7 =
      .ok { demoS1 with jobs := demoS1.jobs.set 0 (claimedJob demoJob 2 7 100) } ∧
    (claimedJob demoJob 2 7 100).paidAmount = 200 ∧
    cancelJob demoS1 1 0 = .ok (cancelResultState demoS1 demoJob 0) := by
  have h := open_job_never_expires demoS1 2 0 7 demoJob rfl rfl (by decide)
    (by decide)
  exact ⟨(h.1 100 (by decide)).1, (h.1 100 (by decide)).2, h.2.2 (by decide)⟩

/-! ## C5 -/

/-- C5: approveWork postcondition and atomicity.  For a Submitted job,
called by the poster with a rating in bounds: when the board can pay,
approveWork completes the job, stores the rating, pays exactly paidAmount
to the agent, and bumps the agent statistics by one completion, paidAmount
earned and the rating; when the escrow payment fails the whole call fails
with transferFailed and the transaction rolls back, so the status does not
advance and no statistics change; and a subsequent getAgentStats on the
successful state reports exactly the incremented counters with the average
recomputed from the new sums. -/
theorem approveWork_spec (s : State) (caller : Addr) (jobId rating : Nat)
    (job : Job) (hjob : s.jobs[jobId]? = some job)
    (hst : job.status = .Submitted) (hc : caller = job.poster)
    (hr : rating ≤ 100) :
    (job.paidAmount ≤ s.boardBal →
      approveWork s caller jobId rating =
        .ok (approveResultState s job jobId rating)) ∧
    (approvedJob job rating).status = .Completed ∧
    (approvedJob job rating).rating = rating ∧
    (approveResultState s job jobId rating).bal job.agent =
      s.bal job.agent + job.paidAmount ∧
    (approveResultState s job jobId rating).boardBal =
      s.boardBal - job.paidAmount ∧
    ((approveResultState s job jobId rating).agentStats job.agent).completedJobs =
      (s.agentStats job.agent).completedJobs + 1 ∧
    ((approveResultState s job jobId rating).agentStats job.agent).totalEarned =
      (s.agentStats job.agent).totalEarned + job.paidAmount ∧
    ((approveResultState s job jobId rating).agentStats job.agent).totalRating =
      (s.agentStats job.agent).totalRating + rating ∧
    (s.boardBal < job.paidAmount →
      approveWork s caller jobId rating = .error .transferFailed) ∧
    (∀ s', approveWork s caller jobId rating = .ok s' →
      getAgentStats s' job.agent =
        ((s.agentStats job.agent).completedJobs + 1,
         (s.agentStats job.agent).disputedJobs,
         (s.agentStats job.agent).totalEarned + job.paidAmount,
         ((s.agentStats job.agent).totalRating + rating) /
           ((s.agentStats job.agent).completedJobs + 1))) := by
  refine ⟨fun hle => by rw [approveWork_eq hjob hc hst hr, if_neg (by omega)],
    rfl, rfl, by simp [approveResultState], rfl,
    by simp [approveResultState], by simp [approveResultState],
    by simp [approveResultState],
    fun hlt => by rw [approveWork_eq hjob hc hst hr, if_pos hlt],
    fun s' hok => ?_⟩
  obtain ⟨job2, hjob2, _, _, _, _, hs'⟩ := approveWork_ok hok
  rw [hjob] at hjob2
  cases hjob2
  subst hs'
  simp [getAgentStats, approveResultState]

/-- Witness for C5: approving the submitted demo job with rating 90 pays
150 to agent 2, empties the escrow, records stats (1, 0, 150, 90); with
the board balance artificially lowered the same call fails with
transferFailed. -/
theorem approveWork_spec_witness :
    approveWork demoS3 1 0 90 = .ok (approveResultState demoS3 demoSubJob 0 90) ∧
    (approveResultState demoS3 demoSubJob 0 90).bal 2 = 150 ∧
    (approveResultState demoS3 demoSubJob 0 90).boardBal = 0 ∧
    getAgentStats (approveResultState demoS3 demoSubJob 0 90) 2 = (1, 0, 150, 90) ∧
    approveWork { demoS3 with boardBal := 100 } 1 0 90 = .error .transferFailed := by
  have h := approveWork_spec demoS3 1 0 90 demoSubJob rfl rfl rfl (by decide)
  have hlow := approveWork_spec { demoS3 with boardBal := 100 } 1 0 90 demoSubJob
    rfl rfl rfl (by decide)
  refine ⟨h.1 (by decide), by decide, by decide, ?_, ?_⟩
  · exact h.2.2.2.2.2.2.2.2.2 _ (h.1 (by decide))
  · exact hlow.2.2.2.2.2.2.2.2.1 (by decide)

/-! ## C6 -/

lemma submitWork_deadline {s : State} {caller : Addr} {now jobId : Nat}
    {uri : String} {job : Job} (hjob : s.jobs[jobId]? = some job)
    (hag : caller = job.agent) (hcl : job.status = .Claimed)
    (huri : uri ≠ "") (hdl : job.claimedAt + job.workDeadline < now) :
    submitWork s caller now jobId uri = .error .deadlinePassed := by
  unfold submitWork
  simp only [hjob]
  rw [if_neg (by simp [hag]), if_neg (by simp [hcl]), if_neg huri,
    if_pos (show ¬ now ≤ job.claimedAt + job.workDeadline by omega)]

lemma expireJob_early {s : State} {now jobId : Nat} {job : Job}
    (hjob : s.jobs[jobId]? = some job) (hcl : job.status = .Claimed)
    (hdl : now ≤ job.claimedAt + job.workDeadline) :
    expireJob s now jobId = .error .deadlineNotPassed := by
  unfold expireJob
  simp only [hjob]
  rw [if_neg (by simp [hcl]),
    if_pos (show ¬ job.claimedAt + job.workDeadline < now by omega)]

/-- C6: the work deadline boundary is exclusive and exhaustive.  For a
Claimed job, the assigned agent with a non-empty URI: submission succeeds
exactly up to and including claimedAt + workDeadline and fails with
deadlinePassed strictly after; expiry fails with deadlineNotPassed up to
and including the deadline; at the boundary instant the agent may still
submit while expiry is still refused; and at every instant exactly one of
the two time-preconditions holds. -/
theorem deadline_boundary_spec (s : State) (caller : Addr) (jobId : Nat)
    (uri : String) (job : Job) (hjob : s.jobs[jobId]? = some job)
    (hcl : job.status = .Claimed) (hag : caller = job.agent) (huri : uri ≠ "") :
    (∀ now, job.claimedAt + job.workDeadline < now →
      submitWork s caller now jobId uri = .error .deadlinePassed) ∧
    (∀ now, now ≤ job.claimedAt + job.workDeadline →
      submitWork s caller now jobId uri =
        .ok (submitResultState s job jobId uri)) ∧
    (∀ now, now ≤ job.claimedAt + job.workDeadline →
      expireJob s now jobId = .error .deadlineNotPassed) ∧
    (submitWork s caller (job.claimedAt + job.workDeadline) jobId uri =
       .ok (submitResultState s job jobId uri) ∧
     expireJob s (job.claimedAt + job.workDeadline) jobId =
       .error .deadlineNotPassed) ∧
    (∀ now, submitWork s caller now jobId uri = .error .deadlinePassed ↔
      ¬ expireJob s now jobId = .error .deadlineNotPassed) := by
  refine ⟨fun now hdl => submitWork_deadline hjob hag hcl huri hdl,
    fun now hdl => submitWork_succeeds hjob hag hcl huri hdl,
    fun now hdl => expireJob_early hjob hcl hdl,
    ⟨submitWork_succeeds hjob hag hcl huri (le_refl _),
     expireJob_early hjob hcl (le_refl _)⟩,
    fun now => ?_⟩
  by_cases hdl : now ≤ job.claimedAt + job.workDeadline
  · rw [submitWork_succeeds hjob hag hcl huri hdl,
      expireJob_early hjob hcl hdl]
    simp
  · rw [submitWork_deadline hjob hag hcl huri (by omega),
      expireJob_eq hjob hcl (by omega)]
    constructor
    · intro _
      split <;> simp
    · intro _
      rfl

/-- Witness for C6 on the claimed demo job (claimedAt 30, workDeadline 300,
so the boundary is 330): submit at 331 fails, submit at 330 succeeds,
expiry at 330 is refused, and the exclusivity instance at 331. -/
theorem deadline_boundary_spec_witness :
    submitWork demoS2 2 331 0 "w" = .error .deadlinePassed ∧
    submitWork demoS2 2 330 0 "w" =
      .ok (submitResultState demoS2 demoClaimedJob 0 "w") ∧
    expireJob demoS2 330 0 = .error .deadlineNotPassed ∧
    (submitWork demoS2 2 331 0 "w" = .error .deadlinePassed ↔
      ¬ expireJob demoS2 331 0 = .error .deadlineNotPassed) := by
  have h := deadline_boundary_spec demoS2 2 0 "w" demoClaimedJob rfl rfl rfl
    (by decide)
  exact ⟨h.1 331 (by decide), h.2.1 330 (by decide), h.2.2.1 330 (by decide),
    h.2.2.2.2 331⟩

/-! ## C8 -/

lemma claimRace_closed {s : State} {now jobId : Nat} {job : Job}
    (hjob : s.jobs[jobId]? = some job) (hst : job.status ≠ .Open) :
    ∀ l, claimRace now jobId s l = (s, l.map fun _ => .error .jobNotOpen) := by
  intro l
  induction l with
  | nil => rfl
  | cons p rest ih =>
    obtain ⟨c, aid⟩ := p
    simp only [claimRace, claimJob_not_open hjob hst, ih, List.map_cons]

/-- C8: claim exclusivity under the serialized execution the chain
enforces.  Running a batch of racing claimJob transactions on the same
Open job in sequence, the first (whose caller is not the poster and whose
refund the board can cover) succeeds and becomes the worker; every later
transaction in the batch fails with jobNotOpen and changes nothing, so
exactly one outcome in the batch is a success and the board balance is
decremented exactly once, by the single refund. -/
theorem claim_race_exclusive (s : State) (now jobId : Nat) (job : Job)
    (c0 : Addr) (a0 : Nat) (rest : List (Addr × Nat))
    (hjob : s.jobs[jobId]? = some job) (hopen : job.status = .Open)
    (hne : c0 ≠ job.poster)
    (hbal : job.maxPrice - _getCurrentPrice job now ≤ s.boardBal) :
    claimRace now jobId s ((c0, a0) :: rest) =
      (claimResultState s job c0 a0 now jobId,
       .ok () :: rest.map fun _ => .error .jobNotOpen) ∧
    ((claimRace now jobId s ((c0, a0) :: rest)).2.filter Except.isOk).length = 1 ∧
    (claimResultState s job c0 a0 now jobId).jobs[jobId]? =
      some (claimedJob job c0 a0 now) ∧
    (claimedJob job c0 a0 now).agent = c0 ∧
    (claimResultState s job c0 a0 now jobId).boardBal =
      s.boardBal - (job.maxPrice - _getCurrentPrice job now) := by
  have hlt := (List.getElem?_eq_some.mp hjob).1
  have hsucc : claimJob s c0 now jobId a0 =
      .ok (claimResultState s job c0 a0 now jobId) :=
    claimJob_succeeds hjob hopen hne hbal
  have hjob' : (claimResultState s job c0 a0 now jobId).jobs[jobId]? =
      some (claimedJob job c0 a0 now) := by
    show (s.jobs.set jobId _)[jobId]? = _
    rw [List.getElem?_set_self]
    exact hlt
  have hclosed : claimRace now jobId (claimResultState s job c0 a0 now jobId)
      rest = (claimResultState s job c0 a0 now jobId,
        rest.map fun _ => .error .jobNotOpen) :=
    claimRace_closed hjob' (fun h => JobStatus.noConfusion h) rest
  have hmain : claimRace now jobId s ((c0, a0) :: rest) =
      (claimResultState s job c0 a0 now jobId,
       .ok () :: rest.map fun _ => .error .jobNotOpen) := by
    simp only [claimRace, hsucc, hclosed]
  refine ⟨hmain, ?_, hjob', rfl, rfl⟩
  rw [hmain]
  have herr : ∀ l : List (Addr × Nat),
      ((l.map fun _ => (Except.error Err.jobNotOpen : Except Err Unit)).filter
        Except.isOk) = [] := by
    intro l
    induction l with
    | nil => rfl
    | cons p r ih =>
      simp only [List.map_cons, List.filter_cons]
      rw [show Except.isOk (Except.error Err.jobNotOpen : Except Err Unit) =
        false from rfl]
      simpa using ih
  simp only [List.filter_cons]
  rw [show Except.isOk (Except.ok () : Except Err Unit) = true from rfl]
  simp [herr rest]
  intro _
  rfl

/-- Witness for C8: two racing claims on the freshly posted demo job at
time 30: the first (agent 2) wins at price 150, the second (agent 3)
observes jobNotOpen. -/
theorem claim_race_exclusive_witness :
    claimRace 30 0 demoS1 [(2, 7), (3, 8)] =
      (claimResultState demoS1 demoJob 2 7 30 0,
       [.ok (), .error .jobNotOpen]) ∧
    ((claimRace 30 0 demoS1 [(2, 7), (3, 8)]).2.filter Except.isOk).length = 1 ∧
    (claimResultState demoS1 demoJob 2 7 30 0).boardBal = 150 := by
  have h := claim_race_exclusive demoS1 30 0 demoJob 2 7 [(3, 8)] rfl rfl
    (by decide) (by decide)
  exact ⟨h.1, h.2.1, by decide⟩

/-! ## C9 -/

/-- C9: average-rating query semantics.  getAgentStats derives the average
at query time as totalRating divided (truncating) by completedJobs
whenever completedJobs is positive, returns the sentinel 0 (rendered as
no-rating by consumers) when completedJobs is zero, never reads anything
but the stored counters of that one agent, and stores no average: the
first three components are exactly the stored counters. -/
theorem agent_stats_query_spec (s : State) (agent : Addr) :
    (0 < (s.agentStats agent).completedJobs →
      getAgentStats s agent =
        ((s.agentStats agent).completedJobs,
         (s.agentStats agent).disputedJobs,
         (s.agentStats agent).totalEarned,
         (s.agentStats agent).totalRating /
           (s.agentStats agent).completedJobs)) ∧
    ((s.agentStats agent).completedJobs = 0 →
      getAgentStats s agent =
        (0, (s.agentStats agent).disputedJobs,
         (s.agentStats agent).totalEarned, 0)) ∧
    (∀ t : State, t.agentStats agent = s.agentStats agent →
      getAgentStats t agent = getAgentStats s agent) := by
  refine ⟨fun hpos => ?_, fun hzero => ?_, fun t ht => ?_⟩
  · simp only [getAgentStats]
    rw [if_pos hpos]
  · simp only [getAgentStats]
    rw [if_neg (by omega), hzero]
  · simp only [getAgentStats, ht]

/-- Witness for C9: agent 2 has one completed job in demoS4, so the
average is 90 / 1; in demoS1 no job is completed and the sentinel is 0;
and the frame property between two states with identical rows. -/
theorem agent_stats_query_spec_witness :
    getAgentStats demoS4 2 = (1, 0, 150, 90) ∧
    getAgentStats demoS1 2 = (0, 0, 0, 0) ∧
    getAgentStats demoS3 2 = getAgentStats demoS1 2 := by
  refine ⟨(agent_stats_query_spec demoS4 2).1 (by decide),
    (agent_stats_query_spec demoS1 2).2.1 (by decide),
    (agent_stats_query_spec demoS1 2).2.2 demoS3 rfl⟩

end AgentBountyBoard
